import Mathlib

/-!
# Verification of the asynchronous video writer (arducam_thread_rec.py)

This file gives a shallow embedding of the `AsyncVideoWriter` class of
`arducam_thread_rec.py` and proves the spec's testable properties about it.

Modelling decisions, all read directly off the source:

* A frame is an opaque value of a type parameter `α`.
* `queue.Queue(maxsize)` is a FIFO list of `Option α`; the Python code enqueues
  ordinary frames (here `some f`) via `put_nowait` and the `None` sentinel
  (here `none`) via a blocking `put` inside `stop`.  `put_nowait` raises
  `queue.Full` exactly when `0 < maxsize ≤ qsize` (Python treats
  `maxsize = 0` as unbounded).
* `self.writer`, `self.thread` become Booleans recording whether the attribute
  is non-`None` (the Frame Sink is open / a background unit was spawned).
* The Frame Sink is external (OpenCV).  It is modelled by the `written` log
  (frames handed to `writer.write`, in order) and, per the spec's contract for
  the external sink, by the flag `artifact` ("a file exists at the target
  path"), set when the sink opens successfully.
* The two `print` lines at the end of `stop` emit the summary report
  (size, dropped-frame count); they are modelled by appending to the
  `reports` log.  The file size comes from `os.path.getsize`, an external
  input, so `stop` takes it as the argument `fsize`; the code reports `0`
  when no file exists at the path.  (The division by 1024·1024 for display
  is presentation only and is not modelled.)
* The constructor arguments `filename`, `fourcc`, `fps`, `frame_size` are
  opaque metadata never inspected by the writer logic and are not modelled;
  `queue_size` becomes `maxsize` (source default 128).
-/

/-- The mutable state of one `AsyncVideoWriter` instance, together with the
observable effects on its environment (frames written to the sink, reports
emitted).  Fields are named after the Python attributes. -/
structure AsyncVideoWriter (α : Type) where
  /-- `maxsize` of `self.queue` (constructor argument `queue_size`). -/
  maxsize : Nat
  /-- Contents of `self.queue`, oldest first; `none` is the `None` sentinel. -/
  queue : List (Option α)
  /-- `self.writer is not None` (the Frame Sink is open). -/
  writer : Bool
  /-- `self.thread is not None` (a background unit was spawned, not yet joined). -/
  thread : Bool
  /-- `self.is_recording`. -/
  is_recording : Bool
  /-- `self.dropped_frames`. -/
  dropped_frames : Nat
  /-- Frames handed to `self.writer.write`, in order (the Frame Sink log). -/
  written : List α
  /-- Whether a file exists at `self.filename`.  Modelled from the spec's
  contract for the external Frame Sink: a successful open creates the
  artifact, a failed open leaves none. -/
  artifact : Bool
  /-- Summary reports emitted so far, each `(size, dropped_frames)`
  (the two `print` lines at the end of `stop`). -/
  reports : List (Nat × Nat)
  deriving DecidableEq, Repr

namespace AsyncVideoWriter

/-- `AsyncVideoWriter.__init__`: fresh instance, empty queue, no writer, no
thread, not recording, zero dropped frames.  `queue_size` defaults to 128 as
in the source. -/
def init (α : Type) (queue_size : Nat := 128) : AsyncVideoWriter α :=
  { maxsize := queue_size
    queue := []
    writer := false
    thread := false
    is_recording := false
    dropped_frames := 0
    written := []
    artifact := false
    reports := [] }

/-- Outcome of `cv2.VideoWriter(...)` in `start`: the sink opened (`isOpened`
true), the sink object was built but `isOpened` returned false, or the
constructor raised an exception. -/
inductive OpenResult
  | opened
  | notOpened
  | raised
  deriving DecidableEq, Repr

/-- `AsyncVideoWriter.start`.  On `isOpened` failure the code sets
`self.writer = None` and returns `False`; on an exception it returns `False`
with all attributes unchanged.  On success it sets `is_recording = True`,
resets `dropped_frames = 0`, spawns the consumer thread, and returns `True`
(the successful open also creates the artifact file, per the external sink's
contract). -/
def start (s : AsyncVideoWriter α) (r : OpenResult) : AsyncVideoWriter α × Bool :=
  match r with
  | .opened =>
      ({ s with writer := true
                artifact := true
                is_recording := true
                dropped_frames := 0
                thread := true }, true)
  | .notOpened => ({ s with writer := false }, false)
  | .raised => (s, false)

/-- `queue.put_nowait` raises `queue.Full` iff `0 < maxsize ≤ qsize`. -/
def queueFull (maxsize qsize : Nat) : Prop :=
  0 < maxsize ∧ maxsize ≤ qsize

instance (maxsize qsize : Nat) : Decidable (queueFull maxsize qsize) := by
  unfold queueFull; infer_instance

/-- `AsyncVideoWriter.write`: returns immediately if not recording; otherwise
`put_nowait(frame)`, counting a dropped frame when the queue is full.  It is a
total function: it never blocks the caller. -/
def write (s : AsyncVideoWriter α) (frame : α) : AsyncVideoWriter α :=
  if ¬ s.is_recording then s
  else if queueFull s.maxsize s.queue.length then
    { s with dropped_frames := s.dropped_frames + 1 }
  else
    { s with queue := s.queue ++ [some frame] }

/-- One iteration of the frame branch of `_process_queue`: `queue.get()`
returns the oldest item; if it is a frame and the writer is open it is written
to the sink.  The sentinel branch (`if frame is None: break`) is modelled in
`processQueueDrain`, because the sentinel is only ever enqueued by `stop` and
the remaining iterations up to it are absorbed by `stop`'s `join`.  On an
empty queue `get()` blocks, so no step is possible (identity here). -/
def processQueueStep (s : AsyncVideoWriter α) : AsyncVideoWriter α :=
  match s.queue with
  | some f :: rest =>
      { s with queue := rest
               written := s.written ++ (if s.writer then [f] else []) }
  | _ => s

/-- The run of `_process_queue` from the current queue up to and including the
sentinel: every frame before the first `none` is written (when the writer is
open), the sentinel is consumed and breaks the loop, and anything after it is
left in the queue.  Returns (frames written, queue remainder). -/
def processQueueDrain (writerOpen : Bool) :
    List (Option α) → List α × List (Option α)
  | [] => ([], [])
  | none :: rest => ([], rest)
  | some f :: rest =>
      let d := processQueueDrain writerOpen rest
      ((if writerOpen then f :: d.1 else d.1), d.2)

/-- `AsyncVideoWriter.stop`: sets `is_recording = False`; if a thread exists,
enqueues the `None` sentinel with a blocking `put` and joins the thread; then
releases the writer if open; finally computes the file size (0 when no file
exists at the path) and emits the summary report.

The blocking `put(None)` + `join` pair is modelled as appending the sentinel
and running the consumer to the sentinel (`processQueueDrain`): when the queue
is full the real `put` waits until the live consumer frees a slot, and `join`
absorbs the interleaving, so the observable post-join state is the same. -/
def stop (s : AsyncVideoWriter α) (fsize : Nat) : AsyncVideoWriter α :=
  let s1 := { s with is_recording := false }
  let s2 :=
    if s1.thread then
      let d := processQueueDrain s1.writer (s1.queue ++ [none])
      { s1 with written := s1.written ++ d.1
                queue := d.2
                thread := false }
    else s1
  let s3 := if s2.writer then { s2 with writer := false } else s2
  let size := if s3.artifact then fsize else 0
  { s3 with reports := s3.reports ++ [(size, s3.dropped_frames)] }

/-- An event visible to the writer while it is running: the capture loop
submits a frame (`AsyncVideoWriter.write`), or the background consumer
performs one iteration of `_process_queue`. -/
inductive Event (α : Type)
  | submit : α → Event α
  | consume : Event α

/-- Apply one event to the writer state. -/
def step (s : AsyncVideoWriter α) : Event α → AsyncVideoWriter α
  | .submit f => s.write f
  | .consume => s.processQueueStep

/-- Run a list of events left to right. -/
def run (s : AsyncVideoWriter α) (evs : List (Event α)) : AsyncVideoWriter α :=
  evs.foldl step s

/-- The frames submitted in an event trace, in submission order. -/
def submitted : List (Event α) → List α
  | [] => []
  | .submit f :: es => f :: submitted es
  | .consume :: es => submitted es

/-- Submit a list of frames one after another (the capture loop calling
`write` once per captured frame, with the consumer paused). -/
def writeAll (s : AsyncVideoWriter α) (fs : List α) : AsyncVideoWriter α :=
  fs.foldl write s

/-- The state of a freshly constructed writer whose `start` succeeded. -/
def started (α : Type) (queue_size : Nat := 128) : AsyncVideoWriter α :=
  ((init α queue_size).start .opened).1

end AsyncVideoWriter

namespace AsyncVideoWriter

variable {α : Type}

/-! ## Unfolding lemmas for the three branches of `write` -/

theorem write_not_recording (s : AsyncVideoWriter α) (f : α)
    (h : s.is_recording = false) : s.write f = s := by
  simp [write, h]

theorem write_full (s : AsyncVideoWriter α) (f : α)
    (h : s.is_recording = true) (hf : queueFull s.maxsize s.queue.length) :
    s.write f = { s with dropped_frames := s.dropped_frames + 1 } := by
  simp [write, h, hf]

theorem write_accept (s : AsyncVideoWriter α) (f : α)
    (h : s.is_recording = true) (hf : ¬ queueFull s.maxsize s.queue.length) :
    s.write f = { s with queue := s.queue ++ [some f] } := by
  simp [write, h, hf]

/-! ## Fields untouched by `write` and `processQueueStep` -/

theorem step_fields (s : AsyncVideoWriter α) (e : Event α) :
    (s.step e).maxsize = s.maxsize ∧ (s.step e).writer = s.writer ∧
    (s.step e).thread = s.thread ∧ (s.step e).is_recording = s.is_recording ∧
    (s.step e).artifact = s.artifact ∧ (s.step e).reports = s.reports := by
  cases e with
  | submit f =>
      by_cases h : s.is_recording <;>
        by_cases hf : queueFull s.maxsize s.queue.length <;>
          simp [step, write, h, hf]
  | consume =>
      cases hq : s.queue with
      | nil => simp [step, processQueueStep, hq]
      | cons a rest => cases a <;> simp [step, processQueueStep, hq]

theorem run_fields (evs : List (Event α)) (s : AsyncVideoWriter α) :
    (s.run evs).maxsize = s.maxsize ∧ (s.run evs).writer = s.writer ∧
    (s.run evs).thread = s.thread ∧ (s.run evs).is_recording = s.is_recording ∧
    (s.run evs).artifact = s.artifact ∧ (s.run evs).reports = s.reports := by
  induction evs generalizing s with
  | nil => simp [run]
  | cons e es ih =>
      have h1 := step_fields s e
      have h2 := ih (s.step e)
      simp only [run, List.foldl_cons] at *
      exact ⟨h2.1.trans h1.1, h2.2.1.trans h1.2.1, h2.2.2.1.trans h1.2.2.1,
        h2.2.2.2.1.trans h1.2.2.2.1, h2.2.2.2.2.1.trans h1.2.2.2.2.1,
        h2.2.2.2.2.2.trans h1.2.2.2.2.2⟩

/-- No event ever enqueues the sentinel. -/
theorem run_sentinelFree (evs : List (Event α)) (s : AsyncVideoWriter α)
    (h : none ∉ s.queue) : none ∉ (s.run evs).queue := by
  induction evs generalizing s with
  | nil => simpa [run] using h
  | cons e es ih =>
      simp only [run, List.foldl_cons]
      refine ih _ ?_
      cases e with
      | submit f =>
          by_cases hrec : s.is_recording <;>
            by_cases hf : queueFull s.maxsize s.queue.length <;>
              simp_all [step, write]
      | consume =>
          cases hq : s.queue with
          | nil => simp [step, processQueueStep, hq]
          | cons a rest =>
              cases a with
              | none => simp [hq] at h
              | some f =>
                  simp only [step, processQueueStep, hq]
                  intro hmem
                  exact h (by simp [hq, hmem])

end AsyncVideoWriter


namespace AsyncVideoWriter

/-- A list stays a sublist of itself when one extra element is inserted at the
start of its last block. -/
theorem sublist_skip_last {β : Type} (W sub : List β) (f : β) :
    List.Sublist (W ++ sub) (W ++ f :: sub) :=
  List.Sublist.append_left (List.sublist_cons_self f sub) W

/-- A list stays a sublist of itself when one extra element is inserted at the
start of its middle block. -/
theorem sublist_skip_mid {β : Type} (W Q sub : List β) (f : β) :
    List.Sublist ((W ++ Q) ++ sub) ((W ++ f :: Q) ++ sub) :=
  List.Sublist.append_right (List.Sublist.append_left (List.sublist_cons_self f Q) W) sub

/-- FIFO sublist invariant: along any event trace, the frames already written
followed by the frames still queued form a sublist (order-preserving
subsequence) of the old written-and-queued frames followed by the newly
submitted ones.  Drops and a closed writer may lose frames, never reorder
them. -/
theorem run_sublist (evs : List (Event α)) (s : AsyncVideoWriter α) :
    List.Sublist
      ((s.run evs).written ++ (s.run evs).queue.filterMap id)
      (s.written ++ s.queue.filterMap id ++ submitted evs) := by
  induction evs generalizing s with
  | nil => simp [run, submitted]
  | cons e es ih =>
      simp only [run, List.foldl_cons]
      have key : List.Sublist
          ((s.step e).written ++ (s.step e).queue.filterMap id ++ submitted es)
          (s.written ++ s.queue.filterMap id ++ submitted (e :: es)) := by
        cases e with
        | submit f =>
            by_cases hrec : s.is_recording
            · by_cases hf : queueFull s.maxsize s.queue.length
              · -- frame rejected: only the counter changes
                simp only [step, write, hrec, hf, not_true_eq_false, if_false,
                  if_true, submitted]
                exact sublist_skip_last _ _ f
              · -- frame accepted at the tail of the queue: both sides equal
                simp only [step, write, hrec, hf, not_true_eq_false, if_false,
                  submitted, List.filterMap_append]
                simp [List.filterMap_cons]
            · -- not recording: submit is a no-op, the frame is not kept
              simp only [step, write, hrec]
              simp only [not_false_iff, if_true, submitted]
              exact sublist_skip_last _ _ f
        | consume =>
            cases hq : s.queue with
            | nil => simp [step, processQueueStep, hq, submitted]
            | cons a rest =>
                cases a with
                | none => simp [step, processQueueStep, hq, submitted]
                | some f =>
                    by_cases hw : s.writer
                    · -- the head frame moves from the queue to the sink log
                      simp [step, processQueueStep, hq, hw, submitted,
                        List.filterMap_cons]
                    · -- writer closed: the consumed frame is silently lost
                      simp only [step, processQueueStep, hq, hw, submitted,
                        Bool.false_eq_true, if_false, List.append_nil,
                        List.filterMap_cons, Option.isSome_some, id]
                      exact sublist_skip_mid _ _ _ f
      exact (ih (s.step e)).trans key

end AsyncVideoWriter

namespace AsyncVideoWriter

/-- Accounting invariant: while the writer is open and recording, every
submitted frame ends up in exactly one of the three places counted here —
written to the sink, still queued, or counted as dropped. -/
theorem run_account (evs : List (Event α)) (s : AsyncVideoWriter α)
    (hrec : s.is_recording = true) (hw : s.writer = true) :
    (s.run evs).written.length + (s.run evs).queue.length +
      (s.run evs).dropped_frames =
    s.written.length + s.queue.length + s.dropped_frames +
      (submitted evs).length := by
  induction evs generalizing s with
  | nil => simp [run, submitted]
  | cons e es ih =>
      simp only [run, List.foldl_cons]
      have hrec1 : (s.step e).is_recording = true := (step_fields s e).2.2.2.1.trans hrec
      have hw1 : (s.step e).writer = true := (step_fields s e).2.1.trans hw
      have ihe := ih (s.step e) hrec1 hw1
      simp only [run] at ihe
      rw [ihe]
      cases e with
      | submit f =>
          by_cases hf : queueFull s.maxsize s.queue.length
          · simp [step, write, hrec, hf, submitted]; omega
          · simp [step, write, hrec, hf, submitted]; omega
      | consume =>
          cases hq : s.queue with
          | nil => simp [step, processQueueStep, hq, submitted]
          | cons a rest =>
              cases a with
              | none => simp [step, processQueueStep, hq, submitted]
              | some f =>
                  simp [step, processQueueStep, hq, hw, submitted]
                  omega


/-- Running one more event first. -/
theorem run_cons (s : AsyncVideoWriter α) (e : Event α) (es : List (Event α)) :
    s.run (e :: es) = (s.step e).run es := rfl

/-- No-overflow invariant: while recording with an open writer, if the
current queue length plus the number of frames still to be submitted fits in
the queue capacity, then no frame is ever rejected and written-plus-queued
equals exactly the old contents followed by the submitted frames. -/
theorem run_nodrop (evs : List (Event α)) (s : AsyncVideoWriter α)
    (hrec : s.is_recording = true) (hw : s.writer = true)
    (hcap : s.queue.length + (submitted evs).length ≤ s.maxsize) :
    (s.run evs).dropped_frames = s.dropped_frames ∧
    (s.run evs).written ++ (s.run evs).queue.filterMap id =
      s.written ++ s.queue.filterMap id ++ submitted evs := by
  induction evs generalizing s with
  | nil => simp [run, submitted]
  | cons e es ih =>
      rw [run_cons]
      cases e with
      | submit f =>
          simp only [submitted, List.length_cons] at hcap
          have hnf : ¬ queueFull s.maxsize s.queue.length := by
            rintro ⟨h1, h2⟩
            omega
          have hstep : s.step (Event.submit f) =
              { s with queue := s.queue ++ [some f] } :=
            write_accept s f hrec hnf
          rw [hstep]
          obtain ⟨hd, hq2⟩ :=
            ih { s with queue := s.queue ++ [some f] } hrec hw (by
              show (s.queue ++ [some f]).length + (submitted es).length ≤
                s.maxsize
              simp only [List.length_append, List.length_cons, List.length_nil]
              omega)
          refine ⟨hd, ?_⟩
          rw [hq2]
          simp [submitted, List.filterMap_append]
      | consume =>
          have hsub : submitted (Event.consume :: es) = submitted es := rfl
          rw [hsub] at hcap ⊢
          cases hq : s.queue with
          | nil =>
              have hid : s.step Event.consume = s := by
                simp [step, processQueueStep, hq]
              rw [hid]
              simpa [hq] using ih s hrec hw hcap
          | cons a rest =>
              cases a with
              | none =>
                  have hid : s.step Event.consume = s := by
                    simp [step, processQueueStep, hq]
                  rw [hid]
                  simpa [hq] using ih s hrec hw hcap
              | some f =>
                  have hstep : s.step Event.consume =
                      { s with queue := rest, written := s.written ++ [f] } := by
                    simp [step, processQueueStep, hq, hw]
                  rw [hstep]
                  obtain ⟨hd, hq2⟩ :=
                    ih { s with queue := rest, written := s.written ++ [f] }
                      hrec hw (by
                        show rest.length + (submitted es).length ≤ s.maxsize
                        rw [hq] at hcap
                        simp only [List.length_cons] at hcap
                        omega)
                  refine ⟨hd, ?_⟩
                  rw [hq2]
                  simp [List.filterMap_cons]

end AsyncVideoWriter

namespace AsyncVideoWriter

/-- Draining a sentinel-free queue with the sentinel appended writes exactly
the queued frames (when the writer is open), consumes the sentinel last, and
leaves the queue empty: the consumer terminates with nothing left behind. -/
theorem processQueueDrain_sentinel (w : Bool) (q : List (Option α))
    (hq : none ∉ q) :
    processQueueDrain w (q ++ [none]) =
      ((if w then q.filterMap id else []), []) := by
  induction q with
  | nil => cases w <;> simp [processQueueDrain]
  | cons a q ih =>
      cases a with
      | none => simp at hq
      | some f =>
          have hq2 : none ∉ q := fun h => hq (by simp [h])
          have hstep : processQueueDrain w ((some f :: q) ++ [none]) =
              ((if w then f :: (processQueueDrain w (q ++ [none])).1
                else (processQueueDrain w (q ++ [none])).1),
               (processQueueDrain w (q ++ [none])).2) := rfl
          rw [hstep, ih hq2]
          cases w <;> simp [List.filterMap_cons]

/-- A sentinel-free queue is its frames, each wrapped in `some`. -/
theorem sentinelFree_eq_map (q : List (Option α)) (hq : none ∉ q) :
    q = (q.filterMap id).map some := by
  induction q with
  | nil => simp
  | cons a q ih =>
      cases a with
      | none => simp at hq
      | some f =>
          have hq2 : none ∉ q := fun h => hq (by simp [h])
          calc some f :: q
              = some f :: (q.filterMap id).map some := by rw [← ih hq2]
            _ = ((some f :: q).filterMap id).map some := rfl

/-- `stop` on a writer whose thread is live, sink open, and queue sentinel
free: every queued frame is flushed to the sink in order, the thread is
joined, the sink is released, and one report is emitted. -/
theorem stop_live (s : AsyncVideoWriter α) (fsize : Nat)
    (ht : s.thread = true) (hw : s.writer = true) (hq : none ∉ s.queue) :
    s.stop fsize =
      { s with is_recording := false
               queue := []
               written := s.written ++ s.queue.filterMap id
               thread := false
               writer := false
               reports := s.reports ++
                 [(if s.artifact then fsize else 0, s.dropped_frames)] } := by
  simp [stop, ht, hw, processQueueDrain_sentinel true s.queue hq]

/-- `stop` on a writer with no thread and no open sink (never started, failed
start, or already stopped): nothing is drained, joined, or released; the only
effects are clearing `is_recording` and emitting one report. -/
theorem stop_inert (s : AsyncVideoWriter α) (fsize : Nat)
    (ht : s.thread = false) (hw : s.writer = false) :
    s.stop fsize =
      { s with is_recording := false
               reports := s.reports ++
                 [(if s.artifact then fsize else 0, s.dropped_frames)] } := by
  simp [stop, ht, hw]

/-- After any `stop`, the thread is joined, the sink is released, and
recording is off; the dropped-frame counter and the artifact flag are
unchanged, and exactly one report, carrying that frozen counter, has been
appended. -/
theorem stop_fields (s : AsyncVideoWriter α) (fsize : Nat) :
    (s.stop fsize).thread = false ∧ (s.stop fsize).writer = false ∧
    (s.stop fsize).is_recording = false ∧
    (s.stop fsize).dropped_frames = s.dropped_frames ∧
    (s.stop fsize).artifact = s.artifact ∧
    (s.stop fsize).maxsize = s.maxsize ∧
    (s.stop fsize).reports = s.reports ++
      [(if s.artifact then fsize else 0, s.dropped_frames)] := by
  cases ht : s.thread <;> cases hw : s.writer <;> simp [stop, ht, hw]

/-- Submitting a list of frames one by one is running the submit events. -/
theorem writeAll_eq_run (s : AsyncVideoWriter α) (fs : List α) :
    s.writeAll fs = s.run (fs.map Event.submit) := by
  simp [writeAll, run, List.foldl_map, step]

/-- The submit events of a plain frame list submit exactly those frames. -/
theorem submitted_map (fs : List α) :
    submitted (fs.map Event.submit) = fs := by
  induction fs with
  | nil => rfl
  | cons f fs ih => simp [submitted, ih]

/-- `write` never touches the sink log. -/
theorem write_written (s : AsyncVideoWriter α) (f : α) :
    (s.write f).written = s.written := by
  by_cases h1 : s.is_recording <;>
    by_cases h2 : queueFull s.maxsize s.queue.length <;> simp [write, h1, h2]

/-- Submitting frames never touches the sink log. -/
theorem writeAll_written (s : AsyncVideoWriter α) (fs : List α) :
    (s.writeAll fs).written = s.written := by
  induction fs generalizing s with
  | nil => rfl
  | cons f fs ih => rw [show s.writeAll (f :: fs) = (s.write f).writeAll fs from rfl,
      ih, write_written]

/-- One event never decreases the dropped-frame counter. -/
theorem step_dropped_mono (s : AsyncVideoWriter α) (e : Event α) :
    s.dropped_frames ≤ (s.step e).dropped_frames := by
  cases e with
  | submit f =>
      by_cases h1 : s.is_recording <;>
        by_cases h2 : queueFull s.maxsize s.queue.length <;>
          simp [step, write, h1, h2]
  | consume =>
      cases hq : s.queue with
      | nil => simp [step, processQueueStep, hq]
      | cons a rest => cases a <;> simp [step, processQueueStep, hq]

end AsyncVideoWriter

namespace AsyncVideoWriter

/-- Claim C1 (drain guarantee): for every K with K ≤ N, if K frames are
submitted while the writer is Active and the consumer is running (any
interleaving of consumer iterations with the submissions), then calling
`stop` results in exactly those K frames written to the Frame Sink and a
dropped-frame count of 0, and `stop` joins the background unit before
returning (`thread` is `None` in the state `stop` hands back, and the
written log is already complete in it). -/
theorem C1_drain_guarantee {α : Type} (N : Nat) (evs : List (Event α))
    (fsize : Nat) (hK : (submitted evs).length ≤ N) :
    ((((started α N).run evs).stop fsize)).written = submitted evs ∧
    ((((started α N).run evs).stop fsize)).dropped_frames = 0 ∧
    ((((started α N).run evs).stop fsize)).thread = false := by
  have hrec : (started α N).is_recording = true := rfl
  have hw : (started α N).writer = true := rfl
  have hth : (started α N).thread = true := rfl
  have hsf : none ∉ ((started α N).run evs).queue :=
    run_sentinelFree evs _ (by simp [show (started α N).queue = [] from rfl])
  have hflds := run_fields evs (started α N)
  obtain ⟨hd, hwr⟩ := run_nodrop evs (started α N) hrec hw (by
    show (started α N).queue.length + (submitted evs).length ≤
      (started α N).maxsize
    simpa [started, init, start] using hK)
  rw [stop_live _ fsize (hflds.2.2.1.trans hth) (hflds.2.1.trans hw) hsf]
  refine ⟨?_, ?_, rfl⟩
  · show ((started α N).run evs).written ++
      (((started α N).run evs).queue.filterMap id) = submitted evs
    simpa [started, init, start] using hwr
  · simpa [started, init, start] using hd

/-- Witness for C1 at N = 3, frames 10 and 20 with a consumer iteration
interleaved, file size 7. -/
theorem C1_drain_guarantee_witness :
    (submitted ([Event.submit 10, Event.consume, Event.submit 20] :
        List (Event Nat))).length ≤ 3 ∧
    ((((started Nat 3).run
        [Event.submit 10, Event.consume, Event.submit 20]).stop 7)).written =
      submitted ([Event.submit 10, Event.consume, Event.submit 20] :
        List (Event Nat)) ∧
    ((((started Nat 3).run
        [Event.submit 10, Event.consume, Event.submit 20]).stop 7)).dropped_frames
      = 0 ∧
    ((((started Nat 3).run
        [Event.submit 10, Event.consume, Event.submit 20]).stop 7)).thread
      = false := by
  refine ⟨by decide, ?_⟩
  exact C1_drain_guarantee 3 [Event.submit 10, Event.consume, Event.submit 20]
    7 (by decide)

/-- Claim C2 (FIFO ordering): for every sequence of frames submitted while
the writer is Active, with consumer iterations interleaved arbitrarily, the
frames actually written to the Frame Sink once `stop` completes form a
sublist of the submitted sequence — drops may remove frames, but written
frames are never reordered. -/
theorem C2_fifo_order {α : Type} (N : Nat) (evs : List (Event α))
    (fsize : Nat) :
    List.Sublist ((((started α N).run evs).stop fsize).written)
      (submitted evs) := by
  have hsf : none ∉ ((started α N).run evs).queue :=
    run_sentinelFree evs _ (by simp [show (started α N).queue = [] from rfl])
  have hflds := run_fields evs (started α N)
  have hth : (started α N).thread = true := rfl
  have hw : (started α N).writer = true := rfl
  rw [stop_live _ fsize (hflds.2.2.1.trans hth) (hflds.2.1.trans hw) hsf]
  have hsub := run_sublist evs (started α N)
  simpa [started, init, start] using hsub

end AsyncVideoWriter

namespace AsyncVideoWriter

/-- Claim C3 (boundedness): the queue never holds more than N items (N is
fixed at construction; the source default is 128): any single event preserves
`queue.length ≤ maxsize` when the capacity is positive.  Moreover, submitting
N + 1 frames in rapid succession while the consumer is paused (no consumer
iterations) rejects exactly one frame: the dropped-frame counter ends at 1
and the queue holds exactly the first N frames. -/
theorem C3_boundedness {α : Type} :
    (∀ (s : AsyncVideoWriter α) (e : Event α), 0 < s.maxsize →
      s.queue.length ≤ s.maxsize → (s.step e).queue.length ≤ s.maxsize) ∧
    (init α).maxsize = 128 ∧
    (∀ (N : Nat) (frames : List α), 0 < N → frames.length = N + 1 →
      ((started α N).writeAll frames).dropped_frames = 1 ∧
      ((started α N).writeAll frames).queue = (frames.take N).map some ∧
      ((started α N).writeAll frames).queue.length = N) := by
  refine ⟨?_, rfl, ?_⟩
  · intro s e hpos hlen
    cases e with
    | submit f =>
        by_cases h1 : s.is_recording
        · by_cases h2 : queueFull s.maxsize s.queue.length
          · simpa [step, write, h1, h2] using hlen
          · have hlt : s.queue.length < s.maxsize := by
              rcases Nat.lt_or_ge s.queue.length s.maxsize with h | h
              · exact h
              · exact absurd ⟨hpos, h⟩ h2
            simp only [step, write, h1, h2, not_true_eq_false, if_false,
              List.length_append, List.length_cons, List.length_nil]
            omega
        · simpa [step, write, h1] using hlen
    | consume =>
        cases hq : s.queue with
        | nil =>
            rw [show s.step Event.consume = s from by
              simp [step, processQueueStep, hq]]
            exact hlen
        | cons a rest =>
            cases a with
            | none =>
                rw [show s.step Event.consume = s from by
                  simp [step, processQueueStep, hq]]
                exact hlen
            | some f =>
                simp only [step, processQueueStep, hq]
                rw [hq] at hlen
                simp only [List.length_cons] at hlen
                show rest.length ≤ s.maxsize
                omega
  · intro N frames hpos hlen
    have hne : frames ≠ [] := by
      intro h
      rw [h] at hlen
      simp at hlen
    have hsplit : frames.dropLast ++ [frames.getLast hne] = frames :=
      List.dropLast_append_getLast hne
    have hlen1 : frames.dropLast.length = N := by
      rw [List.length_dropLast, hlen]
      omega
    have hwa : (started α N).writeAll frames =
        ((started α N).writeAll frames.dropLast).write (frames.getLast hne) := by
      conv_lhs => rw [← hsplit]
      simp [writeAll, List.foldl_append]
    have hrun : (started α N).writeAll frames.dropLast =
        (started α N).run (frames.dropLast.map Event.submit) :=
      writeAll_eq_run _ _
    have hflds := run_fields (frames.dropLast.map Event.submit) (started α N)
    obtain ⟨hd, hwr⟩ := run_nodrop (frames.dropLast.map Event.submit)
      (started α N) rfl rfl (by
        show (started α N).queue.length +
          (submitted (frames.dropLast.map Event.submit)).length ≤
          (started α N).maxsize
        rw [submitted_map, hlen1]
        show 0 + N ≤ N
        omega)
    have hsf : none ∉ ((started α N).run (frames.dropLast.map Event.submit)).queue :=
      run_sentinelFree _ _ (by simp [show (started α N).queue = [] from rfl])
    have hwrit : ((started α N).writeAll frames.dropLast).written = [] := by
      rw [writeAll_written]
      rfl
    have hfm : (((started α N).run (frames.dropLast.map Event.submit)).queue.filterMap id)
        = frames.dropLast := by
      rw [← hrun] at hwr ⊢
      rw [hwrit, submitted_map] at hwr
      simpa [started, init, start] using hwr
    have hqeq : ((started α N).writeAll frames.dropLast).queue =
        frames.dropLast.map some := by
      rw [hrun]
      rw [sentinelFree_eq_map _ hsf, hfm]
    have hql : ((started α N).writeAll frames.dropLast).queue.length = N := by
      rw [hqeq, List.length_map, hlen1]
    have hms : ((started α N).writeAll frames.dropLast).maxsize = N := by
      rw [hrun]
      exact hflds.1.trans rfl
    have hrec1 : ((started α N).writeAll frames.dropLast).is_recording = true := by
      rw [hrun]
      exact hflds.2.2.2.1.trans rfl
    have hfull : queueFull ((started α N).writeAll frames.dropLast).maxsize
        ((started α N).writeAll frames.dropLast).queue.length := by
      rw [hms, hql]
      exact ⟨hpos, le_refl N⟩
    have hdrop0 : ((started α N).writeAll frames.dropLast).dropped_frames = 0 := by
      rw [hrun, hd]
      rfl
    have htake : frames.take N = frames.dropLast := by
      rw [List.dropLast_eq_take, hlen]
      simp
    rw [hwa, write_full _ _ hrec1 hfull]
    refine ⟨?_, ?_, ?_⟩
    · simp only [hdrop0]
    · simp only [hqeq, htake]
    · simp only [hql]

/-- Witness for C3: capacity preservation at a concrete started writer, and
the N + 1 overflow scenario at N = 2 with frames 1, 2, 3. -/
theorem C3_boundedness_witness :
    (0 < (started Nat 2).maxsize ∧
     (started Nat 2).queue.length ≤ (started Nat 2).maxsize ∧
     ((started Nat 2).step (Event.submit 5)).queue.length ≤
       (started Nat 2).maxsize) ∧
    (0 < 2 ∧ ([1, 2, 3] : List Nat).length = 2 + 1 ∧
     ((started Nat 2).writeAll [1, 2, 3]).dropped_frames = 1 ∧
     ((started Nat 2).writeAll [1, 2, 3]).queue =
       (([1, 2, 3] : List Nat).take 2).map some ∧
     ((started Nat 2).writeAll [1, 2, 3]).queue.length = 2) := by
  constructor
  · exact ⟨by decide, by decide,
      C3_boundedness.1 (started Nat 2) (Event.submit 5) (by decide) (by decide)⟩
  · exact ⟨by decide, by decide,
      C3_boundedness.2.2 2 [1, 2, 3] (by decide) (by decide)⟩

end AsyncVideoWriter

namespace AsyncVideoWriter

/-- Claim C4 (dropped-frame counter semantics): the counter is reset to 0 on
every successful `start`; it never decreases under any event; it is
incremented exactly once per frame rejected by a full queue and by nothing
else (an accepted or ignored submit and a consumer iteration leave it
unchanged); and `stop` freezes it (leaves it unchanged) and reports exactly
that frozen value in the summary. -/
theorem C4_dropped_counter {α : Type} :
    (∀ s : AsyncVideoWriter α, ((s.start .opened).1).dropped_frames = 0) ∧
    (∀ (s : AsyncVideoWriter α) (e : Event α),
      s.dropped_frames ≤ (s.step e).dropped_frames) ∧
    (∀ (s : AsyncVideoWriter α) (f : α), s.is_recording = true →
      queueFull s.maxsize s.queue.length →
      (s.write f).dropped_frames = s.dropped_frames + 1) ∧
    (∀ (s : AsyncVideoWriter α) (f : α), s.is_recording = true →
      ¬ queueFull s.maxsize s.queue.length →
      (s.write f).dropped_frames = s.dropped_frames) ∧
    (∀ (s : AsyncVideoWriter α) (f : α), s.is_recording = false →
      (s.write f).dropped_frames = s.dropped_frames) ∧
    (∀ s : AsyncVideoWriter α,
      s.processQueueStep.dropped_frames = s.dropped_frames) ∧
    (∀ (s : AsyncVideoWriter α) (m : Nat),
      (s.stop m).dropped_frames = s.dropped_frames ∧
      (s.stop m).reports = s.reports ++
        [(if s.artifact then m else 0, s.dropped_frames)]) := by
  refine ⟨fun s => rfl, step_dropped_mono, ?_, ?_, ?_, ?_, ?_⟩
  · intro s f hrec hfull
    rw [write_full s f hrec hfull]
  · intro s f hrec hnf
    rw [write_accept s f hrec hnf]
  · intro s f hrec
    rw [write_not_recording s f hrec]
  · intro s
    cases hq : s.queue with
    | nil => simp [processQueueStep, hq]
    | cons a rest => cases a <;> simp [processQueueStep, hq]
  · intro s m
    exact ⟨(stop_fields s m).2.2.2.1, (stop_fields s m).2.2.2.2.2.2⟩

/-- Witness for C4 at concrete states: a full queue of capacity 1, an empty
queue of capacity 1, a non-recording writer, and a stop with file size 9. -/
theorem C4_dropped_counter_witness :
    ((started Nat 1).writeAll [4]).is_recording = true ∧
    queueFull ((started Nat 1).writeAll [4]).maxsize
      ((started Nat 1).writeAll [4]).queue.length ∧
    (((started Nat 1).writeAll [4]).write 6).dropped_frames =
      ((started Nat 1).writeAll [4]).dropped_frames + 1 ∧
    (started Nat 1).is_recording = true ∧
    ¬ queueFull (started Nat 1).maxsize (started Nat 1).queue.length ∧
    ((started Nat 1).write 6).dropped_frames =
      (started Nat 1).dropped_frames ∧
    (init Nat 1).is_recording = false ∧
    ((init Nat 1).write 6).dropped_frames = (init Nat 1).dropped_frames ∧
    (((started Nat 1).writeAll [4]).stop 9).dropped_frames =
      ((started Nat 1).writeAll [4]).dropped_frames := by
  refine ⟨by decide, by decide, ?_, by decide, by decide, ?_, by decide, ?_, ?_⟩
  · exact C4_dropped_counter.2.2.1 _ 6 (by decide) (by decide)
  · exact C4_dropped_counter.2.2.2.1 _ 6 (by decide) (by decide)
  · exact C4_dropped_counter.2.2.2.2.1 _ 6 (by decide)
  · exact (C4_dropped_counter.2.2.2.2.2.2 _ 9).1

/-- Claim C5 (submit contract): `write` is a pure no-op when the writer is
not recording (no enqueue, no counter change, no error); when recording it
offers the frame to the queue, incrementing the dropped-frame counter with
the queue untouched exactly when the queue is full, and appending the frame
with the counter untouched otherwise.  `write` is a total function of the
state, so it never blocks its caller regardless of outcome. -/
theorem C5_submit_contract {α : Type} :
    (∀ (s : AsyncVideoWriter α) (f : α), s.is_recording = false →
      s.write f = s) ∧
    (∀ (s : AsyncVideoWriter α) (f : α), s.is_recording = true →
      queueFull s.maxsize s.queue.length →
      s.write f = { s with dropped_frames := s.dropped_frames + 1 }) ∧
    (∀ (s : AsyncVideoWriter α) (f : α), s.is_recording = true →
      ¬ queueFull s.maxsize s.queue.length →
      s.write f = { s with queue := s.queue ++ [some f] }) :=
  ⟨write_not_recording, write_full, write_accept⟩

/-- Witness for C5: a non-recording writer ignores frame 3; a recording
writer with a full queue of capacity 1 rejects frame 3; a freshly started
writer accepts frame 3. -/
theorem C5_submit_contract_witness :
    (init Nat 1).is_recording = false ∧
    (init Nat 1).write 3 = init Nat 1 ∧
    ((started Nat 1).writeAll [4]).is_recording = true ∧
    queueFull ((started Nat 1).writeAll [4]).maxsize
      ((started Nat 1).writeAll [4]).queue.length ∧
    ((started Nat 1).writeAll [4]).write 3 =
      { (started Nat 1).writeAll [4] with
          dropped_frames := ((started Nat 1).writeAll [4]).dropped_frames + 1 } ∧
    (started Nat 1).is_recording = true ∧
    ¬ queueFull (started Nat 1).maxsize (started Nat 1).queue.length ∧
    (started Nat 1).write 3 =
      { started Nat 1 with queue := (started Nat 1).queue ++ [some 3] } := by
  refine ⟨by decide, ?_, by decide, by decide, ?_, by decide, by decide, ?_⟩
  · exact C5_submit_contract.1 _ 3 (by decide)
  · exact C5_submit_contract.2.1 _ 3 (by decide) (by decide)
  · exact C5_submit_contract.2.2 _ 3 (by decide) (by decide)

end AsyncVideoWriter

namespace AsyncVideoWriter

/-- Claim C6 (no-accept-after-stop): once `stop` has run, any further submit
is a complete no-op (nothing enqueued, nothing written, no drop counted), and
the frames written plus the frames dropped account exactly for the frames
submitted strictly before `stop`, whatever interleaving of submissions and
consumer iterations happened while Active. -/
theorem C6_no_accept_after_stop {α : Type} (N : Nat) (evs : List (Event α))
    (g : α) (fsize : Nat) :
    ((((started α N).run evs).stop fsize).write g =
      (((started α N).run evs).stop fsize)) ∧
    ((((started α N).run evs).stop fsize).written.length +
      (((started α N).run evs).stop fsize).dropped_frames =
      (submitted evs).length) := by
  constructor
  · exact write_not_recording _ g
      (stop_fields (((started α N).run evs)) fsize).2.2.1
  · have hsf : none ∉ ((started α N).run evs).queue :=
      run_sentinelFree evs _ (by simp [show (started α N).queue = [] from rfl])
    have hflds := run_fields evs (started α N)
    have hacc := run_account evs (started α N) rfl rfl
    rw [stop_live _ fsize (hflds.2.2.1.trans rfl) (hflds.2.1.trans rfl) hsf]
    show (((started α N).run evs).written ++
        ((started α N).run evs).queue.filterMap id).length +
      ((started α N).run evs).dropped_frames = (submitted evs).length
    have hfl : (((started α N).run evs).queue.filterMap id).length =
        ((started α N).run evs).queue.length := by
      conv_rhs => rw [sentinelFree_eq_map _ hsf]
      rw [List.length_map]
    rw [List.length_append, hfl]
    have hz : (started α N).written.length + (started α N).queue.length +
        (started α N).dropped_frames = 0 := rfl
    omega

/-- Claim C7 (start failure contract): whenever opening the Frame Sink fails
— `isOpened` returning false or the constructor raising — `start` on a fresh
writer returns `False` and leaves the state exactly as constructed: Idle
(`is_recording` false), no background unit (`thread` is `None`), no partial
writes (empty sink log), and no artifact at the target path. -/
theorem C7_start_failure {α : Type} (N : Nat) (r : OpenResult)
    (hr : r ≠ OpenResult.opened) :
    ((init α N).start r).2 = false ∧
    ((init α N).start r).1 = init α N ∧
    (init α N).is_recording = false ∧
    (init α N).thread = false ∧
    (init α N).written = [] ∧
    (init α N).artifact = false := by
  cases r with
  | opened => exact absurd rfl hr
  | notOpened => exact ⟨rfl, rfl, rfl, rfl, rfl, rfl⟩
  | raised => exact ⟨rfl, rfl, rfl, rfl, rfl, rfl⟩

/-- Witness for C7 at capacity 4 with a raising constructor. -/
theorem C7_start_failure_witness :
    OpenResult.raised ≠ OpenResult.opened ∧
    ((init Nat 4).start .raised).2 = false ∧
    ((init Nat 4).start .raised).1 = init Nat 4 ∧
    (init Nat 4).is_recording = false ∧
    (init Nat 4).thread = false ∧
    (init Nat 4).written = [] ∧
    (init Nat 4).artifact = false :=
  ⟨by decide, C7_start_failure 4 .raised (by decide)⟩

/-- Claim C8 (end-of-stream marker semantics): with a live background unit,
the marker enqueued by `stop` is never silently dropped: its enqueue succeeds
with no hypothesis on how many frames the queue holds — in particular even
when the queue already holds `maxsize` frames — every frame ahead of it is
flushed to the sink first, the marker is the last item the consumer takes
(the drained queue remainder is empty), and consuming it terminates the
consumer loop (the unit exits and is joined). -/
theorem C8_sentinel_semantics {α : Type} (s : AsyncVideoWriter α)
    (fsize : Nat) (ht : s.thread = true) (hw : s.writer = true)
    (hq : none ∉ s.queue) :
    (s.stop fsize).written = s.written ++ s.queue.filterMap id ∧
    (s.stop fsize).queue = [] ∧
    (s.stop fsize).thread = false ∧
    (∀ w : Bool, processQueueDrain w (s.queue ++ [none]) =
      ((if w then s.queue.filterMap id else []), [])) := by
  rw [stop_live s fsize ht hw hq]
  exact ⟨rfl, rfl, rfl, fun w => processQueueDrain_sentinel w s.queue hq⟩

/-- Witness for C8 on a queue filled to capacity (2 frames, capacity 2). -/
theorem C8_sentinel_semantics_witness :
    ((started Nat 2).writeAll [7, 8]).thread = true ∧
    ((started Nat 2).writeAll [7, 8]).writer = true ∧
    none ∉ ((started Nat 2).writeAll [7, 8]).queue ∧
    ((started Nat 2).writeAll [7, 8]).queue.length =
      ((started Nat 2).writeAll [7, 8]).maxsize ∧
    (((started Nat 2).writeAll [7, 8]).stop 3).written =
      ((started Nat 2).writeAll [7, 8]).written ++
        ((started Nat 2).writeAll [7, 8]).queue.filterMap id ∧
    (((started Nat 2).writeAll [7, 8]).stop 3).queue = [] ∧
    (((started Nat 2).writeAll [7, 8]).stop 3).thread = false := by
  refine ⟨by decide, by decide, by decide, by decide, ?_⟩
  have h := C8_sentinel_semantics ((started Nat 2).writeAll [7, 8]) 3
    (by decide) (by decide) (by decide)
  exact ⟨h.1, h.2.1, h.2.2.1⟩

end AsyncVideoWriter

namespace AsyncVideoWriter

/-- Claim C9 as stated is false on the code: a second `stop` on an
already-stopped writer is not observationally a no-op, because `stop`
unconditionally recomputes the file size and re-emits the summary report
(lines 68–73 of the source run on every call).  Concretely, stopping a
freshly started capacity-2 writer twice yields a different state (two
reports in the log) than stopping it once. -/
theorem C9_stop_idempotence_cex :
    ((started Nat 2).stop 5).stop 5 ≠ (started Nat 2).stop 5 := by decide

/-- Claim C9 amended: invoking `stop` on a writer that is already stopped
changes no state — no marker is enqueued, nothing more is written or
dropped, there is no thread to join and no sink to release — except that it
recomputes the size and re-emits one more summary report carrying the same
frozen values; so two stops equal one stop in every component other than the
report log. -/
theorem C9_stop_idempotent_amended {α : Type} (s : AsyncVideoWriter α)
    (m1 m2 : Nat) :
    ((s.stop m1).stop m2).queue = (s.stop m1).queue ∧
    ((s.stop m1).stop m2).written = (s.stop m1).written ∧
    ((s.stop m1).stop m2).dropped_frames = (s.stop m1).dropped_frames ∧
    ((s.stop m1).stop m2).thread = (s.stop m1).thread ∧
    ((s.stop m1).stop m2).writer = (s.stop m1).writer ∧
    ((s.stop m1).stop m2).is_recording = (s.stop m1).is_recording ∧
    ((s.stop m1).stop m2).reports = (s.stop m1).reports ++
      [(if s.artifact then m2 else 0, s.dropped_frames)] := by
  obtain ⟨ht, hw, hrec, hd, ha, _, _⟩ := stop_fields s m1
  rw [stop_inert (s.stop m1) m2 ht hw]
  exact ⟨rfl, rfl, rfl, rfl, rfl, hrec.symm, by rw [ha, hd]⟩

/-- Claim C10: calling `stop` on a writer whose `start` was never called, or
whose `start` returned false, is safe at the public interface: `stop` is a
total function there, it enqueues no end-of-stream marker (the queue stays
empty), joins no thread and releases no sink (`thread` and `writer` are both
`None` already), yet it still emits one summary report, computing size 0
because no file exists at the target path. -/
theorem C10_stop_without_start {α : Type} (N fsize : Nat) :
    (init α N).stop fsize =
      { init α N with reports := [(0, 0)] } ∧
    ((init α N).start .notOpened).1.stop fsize =
      { init α N with reports := [(0, 0)] } ∧
    ((init α N).start .raised).1.stop fsize =
      { init α N with reports := [(0, 0)] } ∧
    (init α N).thread = false ∧
    (init α N).writer = false ∧
    (init α N).queue = [] ∧
    (init α N).artifact = false :=
  ⟨rfl, rfl, rfl, rfl, rfl, rfl, rfl⟩

end AsyncVideoWriter
